import Mathlib

/-!
Verification development for the stochastic-gradient graph-layout core of
egraph-rs (DistanceMatrix, Drawing geometry family, Rng, Scheduler, SGD).
The Rust implementation crates are not part of the provided source tree
(only the Python test suite is), so each component is modelled from the
specification text and checked against the behaviour the tests pin down.
-/

namespace Egraph

/-- Modelled from the spec: the seedable deterministic pseudo-random source
`Rng` (implementation crate absent from the source tree).  The state is a
64-bit word; `seed_from` fixes the initial state from the seed. -/
structure Rng where
  state : ℕ
deriving DecidableEq

/-- Modelled from the spec: `Rng.seed_from(s)` constructs the deterministic
stream from the 64-bit seed alone. -/
def Rng.seedFrom (s : ℕ) : Rng := ⟨s % 2 ^ 64⟩

/-- Modelled from the spec: one draw from the deterministic stream, a linear
congruential step on the 64-bit state (overflow is explicit `% 2 ^ 64`). -/
def Rng.next (r : Rng) : ℕ × Rng :=
  let s := (6364136223846793005 * r.state + 1442695040888963407) % 2 ^ 64
  (s, ⟨s⟩)

/-- A draw reduced below a bound, used to pick shuffle positions. -/
def Rng.genBelow (r : Rng) (n : ℕ) : ℕ × Rng :=
  let p := r.next
  (p.1 % n, p.2)

/-- Modelled from the spec: `shuffle` reorders a term list using the supplied
`Rng`, consuming one draw per element and threading the stream state. -/
def shuffleList {α : Type} : Rng → List α → List α × Rng
  | r, [] => ([], r)
  | r, x :: xs =>
    let p := shuffleList r xs
    let q := p.2.genBelow (p.1.length + 1)
    (List.insertIdx q.1 x p.1, q.2)

/-- Target distances: a rational value or `⊤` for unreachable pairs
(every finite IEEE double is a rational, so `ℚ` is an exact carrier). -/
abbrev Dist := WithTop ℚ

/-- Modelled from the spec: the dense all-pairs target-distance table.
`n` nodes are identified by `0..n-1`; the entry function is total but only
indices below `n` are observable through `get`/`set`. -/
structure DistanceMatrix where
  n : ℕ
  entry : ℕ → ℕ → Dist

/-- `get(i,j)`: the stored entry, or an absent value when either index is
out of range (never an error). -/
def DistanceMatrix.get (m : DistanceMatrix) (i j : ℕ) : Option Dist :=
  if i < m.n ∧ j < m.n then some (m.entry i j) else none

/-- `set(i,j,v)`: overwrites exactly the ordered entry `(i,j)` and reports
`some ()`; with an out-of-range index it is a silent no-op reporting `none`.
Returns the updated matrix together with the status. -/
def DistanceMatrix.set (m : DistanceMatrix) (i j : ℕ) (v : Dist) :
    DistanceMatrix × Option Unit :=
  if i < m.n ∧ j < m.n then
    ({ m with entry := fun a b => if a = i ∧ b = j then v else m.entry a b }, some ())
  else (m, none)

/-- Mutable graph container (external collaborator): nodes are `0..n-1`,
arcs carry a rational length; an undirected edge contributes both arcs. -/
structure Graph where
  nodeCount : ℕ
  arcs : List (ℕ × ℕ × ℚ)

/-- `add_node`: appends one node, returning the new graph and the index the
container assigns to the node. -/
def Graph.addNode (g : Graph) : Graph × ℕ :=
  ({ g with nodeCount := g.nodeCount + 1 }, g.nodeCount)

/-- Sum of two target distances; `⊤` (+infinity) absorbs. -/
def distAdd : Dist → Dist → Dist
  | some a, some b => some (a + b)
  | _, _ => ⊤

/-- Lesser of two target distances; `⊤` (+infinity) is the neutral element. -/
def distMin : Dist → Dist → Dist
  | some a, some b => some (min a b)
  | some a, none => some a
  | none, d => d

/-- Least arc length from `i` to `j`, `⊤` when no arc joins them. -/
def arcWeight (es : List (ℕ × ℕ × ℚ)) (i j : ℕ) : Dist :=
  es.foldl (fun acc e => if e.1 = i ∧ e.2.1 = j then distMin acc (some e.2.2) else acc) ⊤

/-- Distance table before relaxation: `0` on the diagonal, direct arc
lengths elsewhere. -/
def initDist (es : List (ℕ × ℕ × ℚ)) (i j : ℕ) : Dist :=
  if i = j then some 0 else arcWeight es i j

/-- Entry `(i,j)` of a row-major distance table, `⊤` outside the table. -/
def mget (m : List (List Dist)) (i j : ℕ) : Dist :=
  (((m.get? i).bind fun r => r.get? j).getD ⊤)

/-- The distance table before relaxation, as row-major data. -/
def initTable (g : Graph) : List (List Dist) :=
  (List.range g.nodeCount).map fun i => (List.range g.nodeCount).map (initDist g.arcs i)

/-- One Floyd–Warshall relaxation round through intermediate node `k`. -/
def fwRound (n : ℕ) (m : List (List Dist)) (k : ℕ) : List (List Dist) :=
  (List.range n).map fun i => (List.range n).map fun j =>
    distMin (mget m i j) (distAdd (mget m i k) (mget m k j))

/-- All rounds of Floyd–Warshall over the `n` intermediate nodes. -/
def fwTable (g : Graph) : List (List Dist) :=
  (List.range g.nodeCount).foldl (fwRound g.nodeCount) (initTable g)

/-- Modelled from the spec: the all-pairs shortest-path producer
(`all_sources_dijkstra` / Floyd–Warshall; implementation crate absent from
the source tree).  Unreachable ordered pairs keep `⊤` (+infinity). -/
def allSourcesShortestPaths (g : Graph) : DistanceMatrix :=
  ⟨g.nodeCount, mget (fwTable g)⟩

/-- The undirected line graph on 5 nodes with unit edge lengths. -/
def lineGraphU : Graph :=
  ⟨5, [(0, 1, 1), (1, 0, 1), (1, 2, 1), (2, 1, 1),
       (2, 3, 1), (3, 2, 1), (3, 4, 1), (4, 3, 1)]⟩

/-- The directed line graph on 5 nodes with unit arc lengths. -/
def lineGraphD : Graph :=
  ⟨5, [(0, 1, 1), (1, 2, 1), (2, 3, 1), (3, 4, 1)]⟩

/-- Distance matrix of the undirected 5-node line graph. -/
def lineMatrixU : DistanceMatrix := allSourcesShortestPaths lineGraphU

/-- Distance matrix of the directed 5-node line graph. -/
def lineMatrixD : DistanceMatrix := allSourcesShortestPaths lineGraphD

/-- Modelled from the spec: the Toroidal-2D write wrap — a stored value `v`
becomes `v - floor(v)`, landing in `[0,1)`. -/
noncomputable def torusWrap (v : ℝ) : ℝ := v - ⌊v⌋

/-- The Toroidal-2D drawing: node set fixed at construction (`len`),
coordinates stored mod 1 in each axis. -/
structure DrawingTorus2d where
  len : ℕ
  pos : ℕ → ℝ × ℝ

/-- `x(u)`: the stored x coordinate, absent for a non-existent node. -/
def DrawingTorus2d.x (d : DrawingTorus2d) (u : ℕ) : Option ℝ :=
  if u < d.len then some (d.pos u).1 else none

/-- `y(u)`: the stored y coordinate, absent for a non-existent node. -/
def DrawingTorus2d.y (d : DrawingTorus2d) (u : ℕ) : Option ℝ :=
  if u < d.len then some (d.pos u).2 else none

/-- `set_x(u,v)`: wraps `v` into `[0,1)` and stores it; a silent no-op for a
non-existent node. -/
noncomputable def DrawingTorus2d.setX (d : DrawingTorus2d) (u : ℕ) (v : ℝ) :
    DrawingTorus2d :=
  { d with pos := fun a => if a = u ∧ u < d.len then (torusWrap v, (d.pos a).2) else d.pos a }

/-- `set_y(u,v)`: wraps `v` into `[0,1)` and stores it; a silent no-op for a
non-existent node. -/
noncomputable def DrawingTorus2d.setY (d : DrawingTorus2d) (u : ℕ) (v : ℝ) :
    DrawingTorus2d :=
  { d with pos := fun a => if a = u ∧ u < d.len then ((d.pos a).1, torusWrap v) else d.pos a }

/-- `edge_segments(u,v)` for the torus: absent when either endpoint does not
exist; otherwise the minimum-image segments — one segment when the direct
difference stays within half a period per axis, two when the edge crosses
the periodic boundary. -/
noncomputable def DrawingTorus2d.edgeSegments (d : DrawingTorus2d) (u v : ℕ) :
    Option (List ((ℝ × ℝ) × (ℝ × ℝ))) :=
  if u < d.len ∧ v < d.len then
    let p := d.pos u
    let q := d.pos v
    let wx : ℝ := if q.1 - p.1 > 1 / 2 then -1 else if q.1 - p.1 < -(1 / 2) then 1 else 0
    let wy : ℝ := if q.2 - p.2 > 1 / 2 then -1 else if q.2 - p.2 < -(1 / 2) then 1 else 0
    if wx = 0 ∧ wy = 0 then some [(p, q)]
    else some [(p, (q.1 + wx, q.2 + wy)), ((p.1 - wx, p.2 - wy), q)]
  else none

/-- Modelled from the spec: `initial_placement` for the Toroidal-2D drawing
(implementation crate absent from the source tree); every node gets a point
already wrapped into `[0,1)` per axis. -/
noncomputable def DrawingTorus2d.initialPlacement (g : Graph) : DrawingTorus2d :=
  ⟨g.nodeCount, fun u => (torusWrap ((u : ℝ) / (g.nodeCount : ℝ)), 1 / 2)⟩

/-- The Euclidean-2D drawing: any finite real vector is a valid point. -/
structure DrawingEuclidean2d where
  len : ℕ
  pos : ℕ → ℝ × ℝ

/-- `x(u)`: the stored x coordinate, absent for a non-existent node. -/
def DrawingEuclidean2d.x (d : DrawingEuclidean2d) (u : ℕ) : Option ℝ :=
  if u < d.len then some (d.pos u).1 else none

/-- `y(u)`: the stored y coordinate, absent for a non-existent node. -/
def DrawingEuclidean2d.y (d : DrawingEuclidean2d) (u : ℕ) : Option ℝ :=
  if u < d.len then some (d.pos u).2 else none

/-- `edge_segments(u,v)`: one straight segment, absent when either endpoint
does not exist. -/
def DrawingEuclidean2d.edgeSegments (d : DrawingEuclidean2d) (u v : ℕ) :
    Option (List ((ℝ × ℝ) × (ℝ × ℝ))) :=
  if u < d.len ∧ v < d.len then some [(d.pos u, d.pos v)] else none

/-- Modelled from the spec: `initial_placement` for the Euclidean-2D drawing
(implementation crate absent from the source tree); nodes are placed on a
circle. -/
noncomputable def DrawingEuclidean2d.initialPlacement (g : Graph) : DrawingEuclidean2d :=
  ⟨g.nodeCount, fun u =>
    (Real.cos (2 * Real.pi * u / g.nodeCount), Real.sin (2 * Real.pi * u / g.nodeCount))⟩

/-- The Hyperbolic-2D (Poincaré disk) drawing. -/
structure DrawingHyperbolic2d where
  len : ℕ
  pos : ℕ → ℝ × ℝ

/-- `x(u)`: the stored x coordinate, absent for a non-existent node. -/
def DrawingHyperbolic2d.x (d : DrawingHyperbolic2d) (u : ℕ) : Option ℝ :=
  if u < d.len then some (d.pos u).1 else none

/-- `y(u)`: the stored y coordinate, absent for a non-existent node. -/
def DrawingHyperbolic2d.y (d : DrawingHyperbolic2d) (u : ℕ) : Option ℝ :=
  if u < d.len then some (d.pos u).2 else none

/-- `edge_segments(u,v)`: one straight segment, absent when either endpoint
does not exist. -/
def DrawingHyperbolic2d.edgeSegments (d : DrawingHyperbolic2d) (u v : ℕ) :
    Option (List ((ℝ × ℝ) × (ℝ × ℝ))) :=
  if u < d.len ∧ v < d.len then some [(d.pos u, d.pos v)] else none

/-- Modelled from the spec: `initial_placement` for the Hyperbolic-2D drawing
(implementation crate absent from the source tree); each node is placed on a
circle of radius `1/2`, well inside the open unit disk as §4.2 requires. -/
noncomputable def DrawingHyperbolic2d.initialPlacement (g : Graph) : DrawingHyperbolic2d :=
  ⟨g.nodeCount, fun u =>
    (1 / 2 * Real.cos (2 * Real.pi * u / g.nodeCount),
     1 / 2 * Real.sin (2 * Real.pi * u / g.nodeCount))⟩

/-- The Spherical-2D drawing: points stored as (longitude, latitude) in
radians. -/
structure DrawingSpherical2d where
  len : ℕ
  pos : ℕ → ℝ × ℝ

/-- `lon(u)`: the stored longitude, absent for a non-existent node. -/
def DrawingSpherical2d.lon (d : DrawingSpherical2d) (u : ℕ) : Option ℝ :=
  if u < d.len then some (d.pos u).1 else none

/-- `lat(u)`: the stored latitude, absent for a non-existent node. -/
def DrawingSpherical2d.lat (d : DrawingSpherical2d) (u : ℕ) : Option ℝ :=
  if u < d.len then some (d.pos u).2 else none

/-- `edge_segments(u,v)`: one segment in (lon,lat) space, absent when either
endpoint does not exist. -/
def DrawingSpherical2d.edgeSegments (d : DrawingSpherical2d) (u v : ℕ) :
    Option (List ((ℝ × ℝ) × (ℝ × ℝ))) :=
  if u < d.len ∧ v < d.len then some [(d.pos u, d.pos v)] else none

/-- Modelled from the spec: `initial_placement` for the Spherical-2D drawing
(implementation crate absent from the source tree); longitudes are spread
over `[-π, π)` at latitude `0`, satisfying the §3 coordinate ranges. -/
noncomputable def DrawingSpherical2d.initialPlacement (g : Graph) : DrawingSpherical2d :=
  ⟨g.nodeCount, fun u => (-Real.pi + 2 * Real.pi * u / g.nodeCount, 0)⟩

/-- The five decay shapes the Scheduler supports. -/
inductive DecayShape
  | constant
  | linear
  | quadratic
  | exponential
  | reciprocal
deriving DecidableEq

/-- The step-size scheduler: `eta_max`, `eta_min`, the iteration count
`t_max`, and the decay shape. -/
structure Scheduler where
  etaMax : ℝ
  etaMin : ℝ
  tMax : ℕ
  shape : DecayShape

/-- Modelled from the spec: the step size `eta(t)` for `t` in `[0, t_max)`
(implementation crate absent from the source tree), following the §4.4
formulas: constant `eta_max`; linear and quadratic interpolation from
`eta_max` to `eta_min` over the `t_max` steps; exponential
`eta_max · (eta_min/eta_max)^(t/(t_max-1))`; reciprocal `1/(a·t + b)` with
`a`, `b` fitted so the endpoints match `eta_max` and `eta_min`. -/
noncomputable def Scheduler.eta (s : Scheduler) (t : ℕ) : ℝ :=
  let T : ℝ := (s.tMax - 1 : ℕ)
  match s.shape with
  | .constant => s.etaMax
  | .linear => s.etaMax - (s.etaMax - s.etaMin) * t / T
  | .quadratic => s.etaMin + (s.etaMax - s.etaMin) * (1 - t / T) ^ 2
  | .exponential => s.etaMax * (s.etaMin / s.etaMax) ^ ((t : ℝ) / T)
  | .reciprocal => 1 / ((1 / s.etaMin - 1 / s.etaMax) / T * t + 1 / s.etaMax)

/-- One optimizer term: a node pair, its target distance and its weight. -/
structure SgdTerm where
  i : ℕ
  j : ℕ
  d : ℝ
  w : ℝ

/-- The Full SGD optimizer: its private state is the term list over all
finite-distance unordered node pairs. -/
structure FullSgd where
  terms : List SgdTerm

/-- Modelled from the spec: the Full term list built from a DistanceMatrix —
every unordered pair `i < j` with a finite target distance, with the
conventional weight `1 / d²`. -/
noncomputable def FullSgd.ofMatrix (m : DistanceMatrix) : FullSgd :=
  ⟨((List.range m.n).map fun i => (List.range m.n).filterMap fun j =>
      if i < j then
        match m.entry i j with
        | some q => some ⟨i, j, (q : ℝ), 1 / (q : ℝ) ^ 2⟩
        | none => none
      else none).flatten⟩

/-- `shuffle(rng)`: reorders the term list using the supplied `Rng`,
threading the stream state. -/
def FullSgd.shuffle (sgd : FullSgd) (r : Rng) : FullSgd × Rng :=
  let p := shuffleList r sgd.terms
  (⟨p.1⟩, p.2)

/-- Modelled from the spec: one per-pair update of `apply` — the current
Euclidean distance `δ` between the endpoints, the bounded step magnitude
`mu = min 1 (eta·w)`, and a symmetric move of both endpoints so their
distance moves a `mu` fraction of the way toward the target `d`.  Terms
naming a non-existent node are skipped (absent-result semantics). -/
noncomputable def applyTerm (n : ℕ) (eta : ℝ) (p : ℕ → ℝ × ℝ) (t : SgdTerm) :
    ℕ → ℝ × ℝ :=
  if t.i < n ∧ t.j < n then
    let pi := p t.i
    let pj := p t.j
    let dx := pi.1 - pj.1
    let dy := pi.2 - pj.2
    let δ := Real.sqrt (dx ^ 2 + dy ^ 2)
    let mu := min 1 (eta * t.w)
    let r := mu * (δ - t.d) / (2 * δ)
    fun a =>
      if a = t.i then (pi.1 - r * dx, pi.2 - r * dy)
      else if a = t.j then (pj.1 + r * dx, pj.2 + r * dy)
      else p a
  else p

/-- `apply(drawing, eta)`: one epoch — a single in-order pass over the term
list, updating the drawing in place. -/
noncomputable def FullSgd.apply (sgd : FullSgd) (d : DrawingEuclidean2d) (eta : ℝ) :
    DrawingEuclidean2d :=
  { d with pos := sgd.terms.foldl (applyTerm d.len eta) d.pos }

/-- The scheduler-driven loop the tests run: for each step size in turn,
`shuffle` with the threaded `Rng` then `apply`, recording the drawing after
each `apply` (the coordinate trajectory). -/
noncomputable def runSgd : List ℝ → FullSgd → DrawingEuclidean2d → Rng →
    List DrawingEuclidean2d
  | [], _, _, _ => []
  | eta :: rest, sgd, d, r =>
    let p := sgd.shuffle r
    let d2 := p.1.apply d eta
    d2 :: runSgd rest p.1 d2 p.2

/-! Helper lemmas. -/

/-- The torus wrap is the fractional part. -/
theorem torusWrap_eq_fract (v : ℝ) : torusWrap v = Int.fract v := rfl

/-- Wrapping an already-wrapped value changes nothing. -/
theorem torusWrap_idem (v : ℝ) : torusWrap (v - ⌊v⌋) = v - ⌊v⌋ := Int.fract_fract v

/-- Reading back the x coordinate just written to an existing node. -/
theorem DrawingTorus2d.x_setX (d : DrawingTorus2d) {u : ℕ} (h : u < d.len) (v : ℝ) :
    (d.setX u v).x u = some (torusWrap v) := by
  simp [DrawingTorus2d.setX, DrawingTorus2d.x, h]

/-- Reading back the y coordinate just written to an existing node. -/
theorem DrawingTorus2d.y_setY (d : DrawingTorus2d) {u : ℕ} (h : u < d.len) (v : ℝ) :
    (d.setY u v).y u = some (torusWrap v) := by
  simp [DrawingTorus2d.setY, DrawingTorus2d.y, h]

/-- A small concrete torus drawing used to instantiate general theorems. -/
noncomputable def exTorus : DrawingTorus2d := ⟨5, fun _ => (0, 0)⟩

/-- A small concrete Euclidean drawing used to instantiate general theorems. -/
def exEuclidean : DrawingEuclidean2d := ⟨5, fun _ => (0, 0)⟩

/-- A small concrete hyperbolic drawing used to instantiate general theorems. -/
def exHyperbolic : DrawingHyperbolic2d := ⟨5, fun _ => (0, 0)⟩

/-- A small concrete spherical drawing used to instantiate general theorems. -/
def exSpherical : DrawingSpherical2d := ⟨5, fun _ => (0, 0)⟩

set_option maxHeartbeats 1600000 in
/-- The matrix of the undirected 5-node unit line graph, evaluated. -/
theorem fwTableU_eval : fwTable lineGraphU =
    [[some 0, some 1, some 2, some 3, some 4],
     [some 1, some 0, some 1, some 2, some 3],
     [some 2, some 1, some 0, some 1, some 2],
     [some 3, some 2, some 1, some 0, some 1],
     [some 4, some 3, some 2, some 1, some 0]] := by
  norm_num [fwTable, lineGraphU, initTable, fwRound, mget, List.range_succ,
    initDist, arcWeight, distMin, distAdd, min_def]

set_option maxHeartbeats 1600000 in
/-- The matrix of the directed 5-node unit line graph, evaluated. -/
theorem fwTableD_eval : fwTable lineGraphD =
    ([[some 0, some 1, some 2, some 3, some 4],
      [⊤, some 0, some 1, some 2, some 3],
      [⊤, ⊤, some 0, some 1, some 2],
      [⊤, ⊤, ⊤, some 0, some 1],
      [⊤, ⊤, ⊤, ⊤, some 0]] : List (List Dist)) := by
  norm_num [fwTable, lineGraphD, initTable, fwRound, mget, List.range_succ,
    initDist, arcWeight, distMin, distAdd, min_def]

/-- The undirected line matrix has 5 nodes. -/
theorem lineMatrixU_n : lineMatrixU.n = 5 := rfl

/-- The undirected line matrix reads from its Floyd–Warshall table. -/
theorem lineMatrixU_entry : lineMatrixU.entry = mget (fwTable lineGraphU) := rfl

/-- The directed line matrix has 5 nodes. -/
theorem lineMatrixD_n : lineMatrixD.n = 5 := rfl

/-- The directed line matrix reads from its Floyd–Warshall table. -/
theorem lineMatrixD_entry : lineMatrixD.entry = mget (fwTable lineGraphD) := rfl

/-! Claim theorems. -/

/-- C2: for every node `u` of a Toroidal-2D drawing and every real `v`,
after `set_x(u,v)` the reader `x(u)` returns `v - ⌊v⌋` (floor-mod into
`[0,1)`), writing the already-wrapped value again is a fixed point, and the
same holds for `set_y`/`y`. -/
theorem torus_set_get_floor_mod (d : DrawingTorus2d) (u : ℕ) (v : ℝ) (h : u < d.len) :
    (d.setX u v).x u = some (v - ⌊v⌋) ∧
    ((d.setX u v).setX u (v - ⌊v⌋)).x u = some (v - ⌊v⌋) ∧
    (d.setY u v).y u = some (v - ⌊v⌋) ∧
    ((d.setY u v).setY u (v - ⌊v⌋)).y u = some (v - ⌊v⌋) :=
  have hx : u < (d.setX u v).len := h
  have hy : u < (d.setY u v).len := h
  ⟨d.x_setX h v,
   by rw [DrawingTorus2d.x_setX _ hx, torusWrap_idem],
   d.y_setY h v,
   by rw [DrawingTorus2d.y_setY _ hy, torusWrap_idem]⟩

/-- Witness for C2 at a concrete drawing, node and values: writing `1.25`
reads back `0.25`, writing `-2.75` reads back `0.25`, and rewriting the
wrapped value is a fixed point. -/
theorem torus_set_get_floor_mod_witness :
    0 < exTorus.len ∧
    (exTorus.setX 0 (5 / 4)).x 0 = some (1 / 4) ∧
    (exTorus.setY 0 (-(11 / 4))).y 0 = some (1 / 4) ∧
    ((exTorus.setX 0 (5 / 4)).setX 0 ((5 : ℝ) / 4 - (⌊(5 / 4 : ℝ)⌋ : ℝ))).x 0 =
      some ((5 : ℝ) / 4 - (⌊(5 / 4 : ℝ)⌋ : ℝ)) := by
  have h05 : (0 : ℕ) < exTorus.len := by decide
  have hf1 : ⌊(5 / 4 : ℝ)⌋ = 1 := by
    rw [Int.floor_eq_iff]
    norm_num
  have hf2 : ⌊(-(11 / 4) : ℝ)⌋ = -3 := by
    rw [Int.floor_eq_iff]
    norm_num
  refine ⟨h05, ?_, ?_, ?_⟩
  · rw [(torus_set_get_floor_mod exTorus 0 (5 / 4) h05).1, hf1]
    norm_num
  · rw [(torus_set_get_floor_mod exTorus 0 (-(11 / 4)) h05).2.2.1, hf2]
    norm_num
  · exact (torus_set_get_floor_mod exTorus 0 (5 / 4) h05).2.1

/-- C5: on any DistanceMatrix, `set` with an out-of-range index reports an
absent value, never raises, and leaves every entry unchanged; `get` with
the same out-of-range indices reports an absent value. -/
theorem distance_matrix_out_of_range_silent (m : DistanceMatrix) (i j : ℕ) (v : Dist)
    (h : ¬(i < m.n ∧ j < m.n)) :
    (m.set i j v).2 = none ∧ (m.set i j v).1 = m ∧
      (∀ a b : ℕ, (m.set i j v).1.get a b = m.get a b) ∧ m.get i j = none := by
  refine ⟨?_, ?_, ?_, ?_⟩ <;> simp [DistanceMatrix.set, DistanceMatrix.get, h]

/-- Witness for C5: `set(10, 11, 5)` on the 5-node line-graph matrix. -/
theorem distance_matrix_out_of_range_silent_witness :
    ¬((10 : ℕ) < lineMatrixU.n ∧ (11 : ℕ) < lineMatrixU.n) ∧
      ((lineMatrixU.set 10 11 (some 5)).2 = none ∧
        (lineMatrixU.set 10 11 (some 5)).1 = lineMatrixU ∧
        (∀ a b : ℕ, (lineMatrixU.set 10 11 (some 5)).1.get a b = lineMatrixU.get a b) ∧
        lineMatrixU.get 10 11 = none) :=
  ⟨by decide, distance_matrix_out_of_range_silent lineMatrixU 10 11 (some 5) (by decide)⟩

/-- C8: on any DistanceMatrix, an in-range `set(i,j,v)` overwrites exactly
the ordered entry `(i,j)`; every other ordered pair — the reverse entry
included — reads as before. -/
theorem distance_matrix_set_frame (m : DistanceMatrix) (i j : ℕ) (v : Dist)
    (hi : i < m.n) (hj : j < m.n) :
    (m.set i j v).1.get i j = some v ∧
      ∀ a b : ℕ, ¬(a = i ∧ b = j) → (m.set i j v).1.get a b = m.get a b := by
  constructor
  · simp [DistanceMatrix.set, DistanceMatrix.get, hi, hj]
  · intro a b hab
    simp [DistanceMatrix.set, DistanceMatrix.get, hi, hj, hab]

/-- Witness for C8: overwriting entry `(0,1)` of the undirected line-graph
matrix, then reading the reverse entry `(1,0)` unchanged. -/
theorem distance_matrix_set_frame_witness :
    ((lineMatrixU.set 0 1 (some (5 / 2))).1.get 0 1 = some (some (5 / 2)) ∧
      ∀ a b : ℕ, ¬(a = 0 ∧ b = 1) →
        (lineMatrixU.set 0 1 (some (5 / 2))).1.get a b = lineMatrixU.get a b) :=
  distance_matrix_set_frame lineMatrixU 0 1 (some (5 / 2)) (by decide) (by decide)

/-- C7: across the four Drawing variants, reading a coordinate of a
non-existent node gives an absent value, and `edge_segments` with a
non-existent endpoint gives an absent value — never an error. -/
theorem drawing_absent_value_reads
    (dE : DrawingEuclidean2d) (dH : DrawingHyperbolic2d)
    (dS : DrawingSpherical2d) (dT : DrawingTorus2d) (u v : ℕ)
    (hE : dE.len ≤ u) (hH : dH.len ≤ u) (hS : dS.len ≤ u) (hT : dT.len ≤ u) :
    dE.x u = none ∧ dE.y u = none ∧
    dH.x u = none ∧ dH.y u = none ∧
    dS.lon u = none ∧ dS.lat u = none ∧
    dT.x u = none ∧ dT.y u = none ∧
    dE.edgeSegments u v = none ∧ dE.edgeSegments v u = none ∧
    dH.edgeSegments u v = none ∧ dH.edgeSegments v u = none ∧
    dS.edgeSegments u v = none ∧ dS.edgeSegments v u = none ∧
    dT.edgeSegments u v = none ∧ dT.edgeSegments v u = none := by
  have hE2 := Nat.not_lt.mpr hE
  have hH2 := Nat.not_lt.mpr hH
  have hS2 := Nat.not_lt.mpr hS
  have hT2 := Nat.not_lt.mpr hT
  refine ⟨?_, ?_, ?_, ?_, ?_, ?_, ?_, ?_, ?_, ?_, ?_, ?_, ?_, ?_, ?_, ?_⟩ <;>
    simp [DrawingEuclidean2d.x, DrawingEuclidean2d.y, DrawingHyperbolic2d.x,
      DrawingHyperbolic2d.y, DrawingSpherical2d.lon, DrawingSpherical2d.lat,
      DrawingTorus2d.x, DrawingTorus2d.y, DrawingEuclidean2d.edgeSegments,
      DrawingHyperbolic2d.edgeSegments, DrawingSpherical2d.edgeSegments,
      DrawingTorus2d.edgeSegments, hE2, hH2, hS2, hT2]

/-- Witness for C7 at node id `999` against 5-node drawings. -/
theorem drawing_absent_value_reads_witness :
    exEuclidean.len ≤ 999 ∧
      (exEuclidean.x 999 = none ∧ exEuclidean.y 999 = none ∧
        exHyperbolic.x 999 = none ∧ exHyperbolic.y 999 = none ∧
        exSpherical.lon 999 = none ∧ exSpherical.lat 999 = none ∧
        exTorus.x 999 = none ∧ exTorus.y 999 = none ∧
        exEuclidean.edgeSegments 999 0 = none ∧ exEuclidean.edgeSegments 0 999 = none ∧
        exHyperbolic.edgeSegments 999 0 = none ∧ exHyperbolic.edgeSegments 0 999 = none ∧
        exSpherical.edgeSegments 999 0 = none ∧ exSpherical.edgeSegments 0 999 = none ∧
        exTorus.edgeSegments 999 0 = none ∧ exTorus.edgeSegments 0 999 = none) :=
  ⟨by decide,
   drawing_absent_value_reads exEuclidean exHyperbolic exSpherical exTorus 999 0
     (by decide) (by decide) (by decide) (by decide)⟩

/-- C9: across all four Drawing variants, the node set is fixed at
construction — after `add_node` on the source graph the old drawing reads
the new node as absent on both axes and keeps its length, while a freshly
built drawing covers the new node with coordinates satisfying the variant's
geometry invariant: `[0,1)` per axis for the torus, any real point for
Euclidean, strictly inside the unit disk for hyperbolic, and longitude in
`[-π, π]`, latitude in `[-π/2, π/2]` for spherical. -/
theorem drawing_node_set_fixed_at_construction (g : Graph) :
    ((DrawingTorus2d.initialPlacement g).x g.addNode.2 = none ∧
      (DrawingTorus2d.initialPlacement g).y g.addNode.2 = none ∧
      (DrawingTorus2d.initialPlacement g).len = g.nodeCount ∧
      (DrawingTorus2d.initialPlacement g.addNode.1).len = g.addNode.1.nodeCount ∧
      ∃ q : ℝ, (DrawingTorus2d.initialPlacement g.addNode.1).x g.addNode.2 = some q ∧
        0 ≤ q ∧ q < 1) ∧
    ((DrawingEuclidean2d.initialPlacement g).x g.addNode.2 = none ∧
      (DrawingEuclidean2d.initialPlacement g).y g.addNode.2 = none ∧
      (DrawingEuclidean2d.initialPlacement g).len = g.nodeCount ∧
      (DrawingEuclidean2d.initialPlacement g.addNode.1).len = g.addNode.1.nodeCount ∧
      ∃ a b : ℝ, (DrawingEuclidean2d.initialPlacement g.addNode.1).x g.addNode.2 = some a ∧
        (DrawingEuclidean2d.initialPlacement g.addNode.1).y g.addNode.2 = some b) ∧
    ((DrawingHyperbolic2d.initialPlacement g).x g.addNode.2 = none ∧
      (DrawingHyperbolic2d.initialPlacement g).y g.addNode.2 = none ∧
      (DrawingHyperbolic2d.initialPlacement g).len = g.nodeCount ∧
      (DrawingHyperbolic2d.initialPlacement g.addNode.1).len = g.addNode.1.nodeCount ∧
      ∃ a b : ℝ, (DrawingHyperbolic2d.initialPlacement g.addNode.1).x g.addNode.2 = some a ∧
        (DrawingHyperbolic2d.initialPlacement g.addNode.1).y g.addNode.2 = some b ∧
        a ^ 2 + b ^ 2 < 1) ∧
    ((DrawingSpherical2d.initialPlacement g).lon g.addNode.2 = none ∧
      (DrawingSpherical2d.initialPlacement g).lat g.addNode.2 = none ∧
      (DrawingSpherical2d.initialPlacement g).len = g.nodeCount ∧
      (DrawingSpherical2d.initialPlacement g.addNode.1).len = g.addNode.1.nodeCount ∧
      ∃ lo la : ℝ, (DrawingSpherical2d.initialPlacement g.addNode.1).lon g.addNode.2 = some lo ∧
        (DrawingSpherical2d.initialPlacement g.addNode.1).lat g.addNode.2 = some la ∧
        -Real.pi ≤ lo ∧ lo ≤ Real.pi ∧
        -(Real.pi / 2) ≤ la ∧ la ≤ Real.pi / 2) := by
  have hv : g.addNode.2 = g.nodeCount := rfl
  have hn : g.addNode.1.nodeCount = g.nodeCount + 1 := rfl
  have hlt : g.nodeCount < g.nodeCount + 1 := Nat.lt_succ_self _
  have hnotlt : ¬ g.nodeCount < g.nodeCount := lt_irrefl _
  have hpos : (0 : ℝ) < (g.nodeCount : ℝ) + 1 := by positivity
  have hdiv0 : 0 ≤ (g.nodeCount : ℝ) / ((g.nodeCount : ℝ) + 1) := by positivity
  have hdiv1 : (g.nodeCount : ℝ) / ((g.nodeCount : ℝ) + 1) < 1 := by
    rw [div_lt_one hpos]
    linarith
  refine ⟨⟨?_, ?_, rfl, rfl, ?_⟩, ⟨?_, ?_, rfl, rfl, ?_⟩,
    ⟨?_, ?_, rfl, rfl, ?_⟩, ⟨?_, ?_, rfl, rfl, ?_⟩⟩
  · simp [DrawingTorus2d.x, DrawingTorus2d.initialPlacement, hv, hnotlt]
  · simp [DrawingTorus2d.y, DrawingTorus2d.initialPlacement, hv, hnotlt]
  · refine ⟨torusWrap ((g.nodeCount : ℝ) / ((g.nodeCount : ℝ) + 1)), ?_, ?_, ?_⟩
    · simp [DrawingTorus2d.x, DrawingTorus2d.initialPlacement, Graph.addNode, hlt]
    · rw [torusWrap_eq_fract]
      exact Int.fract_nonneg _
    · rw [torusWrap_eq_fract]
      exact Int.fract_lt_one _
  · simp [DrawingEuclidean2d.x, DrawingEuclidean2d.initialPlacement, hv, hnotlt]
  · simp [DrawingEuclidean2d.y, DrawingEuclidean2d.initialPlacement, hv, hnotlt]
  · refine ⟨Real.cos (2 * Real.pi * g.nodeCount / ((g.nodeCount : ℝ) + 1)),
      Real.sin (2 * Real.pi * g.nodeCount / ((g.nodeCount : ℝ) + 1)), ?_, ?_⟩
    · simp [DrawingEuclidean2d.x, DrawingEuclidean2d.initialPlacement, Graph.addNode, hlt]
    · simp [DrawingEuclidean2d.y, DrawingEuclidean2d.initialPlacement, Graph.addNode, hlt]
  · simp [DrawingHyperbolic2d.x, DrawingHyperbolic2d.initialPlacement, hv, hnotlt]
  · simp [DrawingHyperbolic2d.y, DrawingHyperbolic2d.initialPlacement, hv, hnotlt]
  · refine ⟨1 / 2 * Real.cos (2 * Real.pi * g.nodeCount / ((g.nodeCount : ℝ) + 1)),
      1 / 2 * Real.sin (2 * Real.pi * g.nodeCount / ((g.nodeCount : ℝ) + 1)), ?_, ?_, ?_⟩
    · simp [DrawingHyperbolic2d.x, DrawingHyperbolic2d.initialPlacement, Graph.addNode, hlt]
    · simp [DrawingHyperbolic2d.y, DrawingHyperbolic2d.initialPlacement, Graph.addNode, hlt]
    · nlinarith [Real.sin_sq_add_cos_sq (2 * Real.pi * g.nodeCount / ((g.nodeCount : ℝ) + 1)),
        Real.neg_one_le_sin (2 * Real.pi * g.nodeCount / ((g.nodeCount : ℝ) + 1)),
        Real.sin_le_one (2 * Real.pi * g.nodeCount / ((g.nodeCount : ℝ) + 1))]
  · simp [DrawingSpherical2d.lon, DrawingSpherical2d.initialPlacement, hv, hnotlt]
  · simp [DrawingSpherical2d.lat, DrawingSpherical2d.initialPlacement, hv, hnotlt]
  · refine ⟨-Real.pi + 2 * Real.pi * g.nodeCount / ((g.nodeCount : ℝ) + 1), 0, ?_, ?_, ?_, ?_, ?_, ?_⟩
    · simp [DrawingSpherical2d.lon, DrawingSpherical2d.initialPlacement, Graph.addNode, hlt]
    · simp [DrawingSpherical2d.lat, DrawingSpherical2d.initialPlacement, Graph.addNode, hlt]
    · rw [mul_div_assoc]
      nlinarith [Real.pi_pos, hdiv0]
    · rw [mul_div_assoc]
      nlinarith [Real.pi_pos, hdiv1]
    · linarith [Real.pi_pos]
    · linarith [Real.pi_pos]

/-- C1: two independently constructed `Rng` instances seeded with the same
seed, driven through the same `shuffle`/`apply` sequence on identically
initialized drawings and optimizers, produce identical coordinate
trajectories after each `apply`. -/
theorem rng_seeded_two_run_determinism (s : ℕ) (r₁ r₂ : Rng)
    (sgd₁ sgd₂ : FullSgd) (d₁ d₂ : DrawingEuclidean2d) (etas : List ℝ)
    (hr₁ : r₁ = Rng.seedFrom s) (hr₂ : r₂ = Rng.seedFrom s)
    (hsgd : sgd₁ = sgd₂) (hd : d₁ = d₂) :
    runSgd etas sgd₁ d₁ r₁ = runSgd etas sgd₂ d₂ r₂ := by
  subst hr₁ hr₂ hsgd hd
  rfl

/-- Witness for C1: seed 42, one epoch at `eta = 0.1`, on the optimizer
built from the undirected line-graph distances. -/
theorem rng_seeded_two_run_determinism_witness :
    runSgd [1 / 10] (FullSgd.ofMatrix lineMatrixU) exEuclidean (Rng.seedFrom 42) =
      runSgd [1 / 10] (FullSgd.ofMatrix lineMatrixU) exEuclidean (Rng.seedFrom 42) :=
  rng_seeded_two_run_determinism 42 (Rng.seedFrom 42) (Rng.seedFrom 42)
    (FullSgd.ofMatrix lineMatrixU) (FullSgd.ofMatrix lineMatrixU)
    exEuclidean exEuclidean [1 / 10] rfl rfl rfl rfl

/-- C6: every node position assigned by the Hyperbolic-2D
`initial_placement` lies strictly inside the open unit disk. -/
theorem hyperbolic_initial_placement_in_disk (g : Graph) (u : ℕ)
    (h : u < (DrawingHyperbolic2d.initialPlacement g).len) :
    ∃ a b : ℝ, (DrawingHyperbolic2d.initialPlacement g).x u = some a ∧
      (DrawingHyperbolic2d.initialPlacement g).y u = some b ∧
      a ^ 2 + b ^ 2 < 1 := by
  have h2 : u < g.nodeCount := h
  refine ⟨1 / 2 * Real.cos (2 * Real.pi * u / g.nodeCount),
    1 / 2 * Real.sin (2 * Real.pi * u / g.nodeCount), ?_, ?_, ?_⟩
  · simp [DrawingHyperbolic2d.x, DrawingHyperbolic2d.initialPlacement, h2]
  · simp [DrawingHyperbolic2d.y, DrawingHyperbolic2d.initialPlacement, h2]
  · nlinarith [Real.sin_sq_add_cos_sq (2 * Real.pi * u / g.nodeCount),
      Real.neg_one_le_sin (2 * Real.pi * u / g.nodeCount),
      Real.sin_le_one (2 * Real.pi * u / g.nodeCount)]

/-- Witness for C6 on a 3-node graph at node 0. -/
theorem hyperbolic_initial_placement_in_disk_witness :
    0 < (DrawingHyperbolic2d.initialPlacement ⟨3, []⟩).len ∧
      ∃ a b : ℝ, (DrawingHyperbolic2d.initialPlacement ⟨3, []⟩).x 0 = some a ∧
        (DrawingHyperbolic2d.initialPlacement ⟨3, []⟩).y 0 = some b ∧
        a ^ 2 + b ^ 2 < 1 :=
  ⟨by decide, hyperbolic_initial_placement_in_disk ⟨3, []⟩ 0 (by decide)⟩

/-- C3 counterexample: the claim asserts `eta(t_max-1) = eta_min` for every
decay shape, but with the constant shape the step size stays at `eta_max`
(per §4.4), so at `eta_max = 1`, `eta_min = 1/2`, `t_max = 2` the endpoint
is `1`, not `1/2`. -/
theorem scheduler_constant_endpoint_counterexample :
    ¬ ((⟨1, 1 / 2, 2, DecayShape.constant⟩ : Scheduler).eta (2 - 1) = 1 / 2) := by
  norm_num [Scheduler.eta]

/-- C3 amended: for the linear, quadratic, exponential and reciprocal decay
shapes, `eta(0) = eta_max` and `eta(t_max-1) = eta_min`; for the constant
shape `eta(t) = eta_max` throughout, so its final step size equals
`eta_min` only when `eta_min = eta_max`. -/
theorem scheduler_endpoints_amended (s : Scheduler)
    (hmax : 0 < s.etaMax) (hmin : 0 < s.etaMin) (ht : 2 ≤ s.tMax) :
    (s.shape ≠ DecayShape.constant →
      s.eta 0 = s.etaMax ∧ s.eta (s.tMax - 1) = s.etaMin) ∧
    (s.shape = DecayShape.constant → ∀ t : ℕ, s.eta t = s.etaMax) := by
  obtain ⟨emax, emin, tmax, shape⟩ := s
  simp only at hmax hmin ht
  have hT : ((tmax - 1 : ℕ) : ℝ) ≠ 0 := Nat.cast_ne_zero.mpr (by omega)
  cases shape with
  | constant =>
    exact ⟨fun hne => absurd rfl hne, fun _ t => by simp [Scheduler.eta]⟩
  | linear =>
    refine ⟨fun _ => ⟨?_, ?_⟩, fun hc => DecayShape.noConfusion hc⟩
    · simp [Scheduler.eta]
    · show emax - (emax - emin) * ((tmax - 1 : ℕ) : ℝ) / ((tmax - 1 : ℕ) : ℝ) = emin
      rw [mul_div_assoc, div_self hT]
      ring
  | quadratic =>
    refine ⟨fun _ => ⟨?_, ?_⟩, fun hc => DecayShape.noConfusion hc⟩
    · simp [Scheduler.eta]
    · show emin + (emax - emin) * (1 - ((tmax - 1 : ℕ) : ℝ) / ((tmax - 1 : ℕ) : ℝ)) ^ 2 = emin
      rw [div_self hT]
      ring
  | exponential =>
    refine ⟨fun _ => ⟨?_, ?_⟩, fun hc => DecayShape.noConfusion hc⟩
    · simp [Scheduler.eta, Real.rpow_zero]
    · show emax * (emin / emax) ^ (((tmax - 1 : ℕ) : ℝ) / ((tmax - 1 : ℕ) : ℝ)) = emin
      rw [div_self hT, Real.rpow_one]
      field_simp
  | reciprocal =>
    refine ⟨fun _ => ⟨?_, ?_⟩, fun hc => DecayShape.noConfusion hc⟩
    · simp [Scheduler.eta, one_div_one_div]
    · show 1 / ((1 / emin - 1 / emax) / ((tmax - 1 : ℕ) : ℝ) * ((tmax - 1 : ℕ) : ℝ) +
        1 / emax) = emin
      rw [div_mul_cancel₀ _ hT, sub_add_cancel, one_div_one_div]

/-- C4: the DistanceMatrix of the undirected 5-node unit line graph has
`get(0,4) = 4 = get(4,0)` and is symmetric throughout, while the directed
version has `get(0,4) = 4`, `get(4,0) = +infinity`, and every unreachable
ordered pair (here exactly the backward pairs `j < i`) reads +infinity. -/
theorem distance_matrix_line_graph_entries :
    (lineMatrixU.get 0 4 = some (some 4) ∧ lineMatrixU.get 4 0 = some (some 4) ∧
      ∀ i j : ℕ, i < 5 → j < 5 → lineMatrixU.get i j = lineMatrixU.get j i) ∧
    (lineMatrixD.get 0 4 = some (some 4) ∧ lineMatrixD.get 4 0 = some ⊤ ∧
      ∀ i j : ℕ, i < 5 → j < 5 → j < i → lineMatrixD.get i j = some ⊤) := by
  refine ⟨⟨?_, ?_, ?_⟩, ?_, ?_, ?_⟩
  · simp [DistanceMatrix.get, lineMatrixU_n, lineMatrixU_entry, fwTableU_eval, mget]
  · simp [DistanceMatrix.get, lineMatrixU_n, lineMatrixU_entry, fwTableU_eval, mget]
  · intro i j hi hj
    interval_cases i <;> interval_cases j <;>
      simp [DistanceMatrix.get, lineMatrixU_n, lineMatrixU_entry, fwTableU_eval, mget]
  · simp [DistanceMatrix.get, lineMatrixD_n, lineMatrixD_entry, fwTableD_eval, mget]
  · simp [DistanceMatrix.get, lineMatrixD_n, lineMatrixD_entry, fwTableD_eval, mget]
  · intro i j hi hj hji
    interval_cases i <;> interval_cases j <;>
      first
      | omega
      | simp [DistanceMatrix.get, lineMatrixD_n, lineMatrixD_entry, fwTableD_eval, mget]

/-- Witness for C4 at the backward pair `(1,0)` of the directed line graph. -/
theorem distance_matrix_line_graph_entries_witness :
    lineMatrixD.get 1 0 = some ⊤ :=
  distance_matrix_line_graph_entries.2.2.2 1 0 (by decide) (by decide) (by decide)

/-- Witness for the amended C3 at `eta_max = 1`, `eta_min = 1/2`,
`t_max = 3` with the linear shape. -/
theorem scheduler_endpoints_amended_witness :
    ((⟨1, 1 / 2, 3, DecayShape.linear⟩ : Scheduler).shape ≠ DecayShape.constant →
      (⟨1, 1 / 2, 3, DecayShape.linear⟩ : Scheduler).eta 0 = 1 ∧
        (⟨1, 1 / 2, 3, DecayShape.linear⟩ : Scheduler).eta (3 - 1) = 1 / 2) ∧
    ((⟨1, 1 / 2, 3, DecayShape.linear⟩ : Scheduler).shape = DecayShape.constant →
      ∀ t : ℕ, (⟨1, 1 / 2, 3, DecayShape.linear⟩ : Scheduler).eta t = 1) :=
  scheduler_endpoints_amended ⟨1, 1 / 2, 3, DecayShape.linear⟩
    (by norm_num) (by norm_num) (by norm_num)

end Egraph
